import Mathlib

/-!
Verification development for the budgie ledger core (`src/budgie/db.py`).

The SQLAlchemy-backed `Database` class is shallowly embedded: each table is a
list of rows, autoincrement primary keys are explicit per-table counters, and
each method of the `Database` class becomes a pure function on a `Database`
state.  SQL `Numeric` amounts are modelled as `Rat` (exact arithmetic).
`NULL`-able columns (such as `user_id`, which holds `self.current_uid` and the
account references, which the source may leave unset) are `Option Nat`.

Two distinct equality semantics of the source are kept apart:
  - SQLAlchemy's `filter_by(col=value)` compiles `col == None` to `IS NULL`,
    so it is plain decidable equality on `Option Nat`;
  - a SQL `UNIQUE` constraint never considers two `NULL`s equal, which is
    `sql_eq` below.
-/

/-- Row of table `app_user` (`UserModel`, db.py lines 20-27).  The `created`
date is kept as its string form; nothing in the code computes with it. -/
structure UserModel where
  id : Nat
  email : String
  password : String
  salt : String
  name : String
  created : String
deriving Repr, DecidableEq

/-- Row of table `account` (`AccountModel`, db.py lines 30-43), with the
`UniqueConstraint("name", "user_id")` enforced in `create_account` below. -/
structure AccountModel where
  id : Nat
  user_id : Option Nat
  name : String
  description : String
  type : String
deriving Repr, DecidableEq

/-- Row of table `tag` (`TagModel`, db.py lines 58-63).  No uniqueness
constraint exists on this table. -/
structure TagModel where
  id : Nat
  user_id : Option Nat
  tag : String
deriving Repr, DecidableEq

/-- Row of the association table `entry_tag` (`EntryTagModel`, db.py
lines 46-55). -/
structure EntryTagModel where
  id : Nat
  user_id : Option Nat
  entry_id : Nat
  tag_id : Nat
deriving Repr, DecidableEq

/-- Row of table `entry` (`EntryModel`, db.py lines 66-84).  The credit and
debit account references are nullable: `add_entry` assigns whatever
`.first()` returned, including `None`. -/
structure EntryModel where
  id : Nat
  user_id : Option Nat
  who : String
  when : String
  credit_account_id : Option Nat
  debit_account_id : Option Nat
  amount : Rat
  description : String
deriving Repr, DecidableEq

/-- State of the `Database` class plus its five tables.  Lists hold rows in
primary-key (insertion) order — the order in which an unordered SQLite query
and `.first()` return them.  `current_uid` is the `self.current_uid` field,
initialised to `None` (db.py line 91). -/
structure Database where
  users : List UserModel
  accounts : List AccountModel
  tags : List TagModel
  entries : List EntryModel
  entry_tags : List EntryTagModel
  next_user_id : Nat
  next_account_id : Nat
  next_tag_id : Nat
  next_entry_id : Nat
  next_entry_tag_id : Nat
  current_uid : Option Nat
deriving Repr, DecidableEq

/-- Freshly constructed `Database` (db.py lines 88-91): empty tables,
autoincrement counters at 1, `current_uid = None`. -/
def Database.empty : Database :=
  ⟨[], [], [], [], [], 1, 1, 1, 1, 1, none⟩

/-- SQL equality for nullable columns as a `UNIQUE` constraint sees it:
two `NULL`s are never equal. -/
def sql_eq : Option Nat → Option Nat → Bool
  | some a, some b => a == b
  | _, _ => false

/-- Errors surfaced by the embedded operations.  The source does not define
error classes of its own: `userNotFound` stands for the `AttributeError`
raised at db.py line 96 when `user` is `None`, and the `duplicate*` errors
stand for the `IntegrityError` the storage layer raises when a `UNIQUE`
constraint is violated (the transaction is rolled back, so the failing call
yields no new state). -/
inductive DBError where
  | userNotFound
  | duplicateUser
  | duplicateAccount
deriving Repr, DecidableEq

/-- `Database.set_current_user` (db.py lines 93-96): looks the user up by
email; on a hit stores its id in `current_uid`, on a miss the unguarded
`user.id` access fails (no identity is established). -/
def set_current_user (db : Database) (email : String) : Except DBError Database :=
  match db.users.find? (fun u => u.email == email) with
  | none => .error .userNotFound
  | some u => .ok { db with current_uid := some u.id }

/-- Input record for `create_account` (the `account` dict of db.py
lines 98-107). -/
structure AccountInput where
  name : String
  description : String
  type : String
deriving Repr, DecidableEq

/-- `Database.create_account` (db.py lines 98-107): inserts a row owned by
`current_uid`.  The method itself performs no check; the
`UNIQUE (name, user_id)` constraint on the table makes the commit fail (and
roll back) when a row with the same name and the same non-`NULL` user already
exists. -/
def create_account (db : Database) (account : AccountInput) : Except DBError Database :=
  if db.accounts.any (fun a => a.name == account.name && sql_eq a.user_id db.current_uid) then
    .error .duplicateAccount
  else
    .ok { db with
      accounts := db.accounts ++
        [⟨db.next_account_id, db.current_uid, account.name, account.description, account.type⟩],
      next_account_id := db.next_account_id + 1 }

/-- `Database.create_tag` (db.py lines 109-116): unconditional insert, no
uniqueness check anywhere. -/
def create_tag (db : Database) (tg : String) : Database :=
  { db with
    tags := db.tags ++ [⟨db.next_tag_id, db.current_uid, tg⟩],
    next_tag_id := db.next_tag_id + 1 }

/-- Input record for `create_user` (the `user` dict of db.py lines 118-128). -/
structure UserInput where
  name : String
  email : String
  password : String
  salt : String
  created : String
deriving Repr, DecidableEq

/-- `Database.create_user` (db.py lines 118-128): inserts a row; the
`unique=True` on the `email` column makes the commit fail on a duplicate
email. -/
def create_user (db : Database) (user : UserInput) : Except DBError Database :=
  if db.users.any (fun u => u.email == user.email) then
    .error .duplicateUser
  else
    .ok { db with
      users := db.users ++
        [⟨db.next_user_id, user.email, user.password, user.salt, user.name, user.created⟩],
      next_user_id := db.next_user_id + 1 }

/-- Input record for `add_entry` (the `entry` dict of db.py lines 147-180).
`tags` is the possibly-missing/empty tag-name list; a missing key and an
empty list behave identically (the `if entry.get("tags", None):` guard and an
empty loop both add nothing). -/
structure EntryInput where
  who : String
  when : String
  amount : Rat
  description : String
  debit_account : String
  credit_account : String
  tags : List String
deriving Repr, DecidableEq

/-- Tag-association loop of `add_entry` (db.py lines 169-178).  For each tag
name, `session.query(TagModel).filter(TagModel.tag == tag_name).first()` is
consulted — note the lookup matches on the tag text only, over every user's
tags, and sees only rows already in the store (rows created by this same call
are not yet flushed).  A hit reuses that row's id; a miss creates a fresh
`TagModel` owned by `current_uid`.  Either way an `EntryTagModel` owned by
`current_uid` and linking the new entry is appended.  Returns the created tag
rows, the created association rows (in tag-name order), and the advanced
autoincrement counters. -/
def process_tags (db : Database) (uid : Option Nat) (eid : Nat) :
    List String → Nat → Nat → List TagModel × List EntryTagModel × Nat × Nat
  | [], ntid, netid => ([], [], ntid, netid)
  | nm :: rest, ntid, netid =>
    match db.tags.find? (fun t => t.tag == nm) with
    | some t =>
      let r := process_tags db uid eid rest ntid (netid + 1)
      (r.1, ⟨netid, uid, eid, t.id⟩ :: r.2.1, r.2.2.1, r.2.2.2)
    | none =>
      let r := process_tags db uid eid rest (ntid + 1) (netid + 1)
      (⟨ntid, uid, nm⟩ :: r.1, ⟨netid, uid, eid, ntid⟩ :: r.2.1, r.2.2.1, r.2.2.2)

/-- `Database.add_entry` (db.py lines 147-180).  The debit and credit account
names are resolved with `filter_by(name=...).first()` — matching on the name
only, not scoped to the current user — and the result is assigned unchecked:
a failed lookup stores `NULL` in the reference column.  The entry row, any
new tag rows and the association rows are committed together; the method
never fails. -/
def add_entry (db : Database) (entry : EntryInput) : Database :=
  let debit_account := db.accounts.find? (fun a => a.name == entry.debit_account)
  let credit_account := db.accounts.find? (fun a => a.name == entry.credit_account)
  let eid := db.next_entry_id
  let entry_m : EntryModel :=
    ⟨eid, db.current_uid, entry.who, entry.when,
      credit_account.map (fun a => a.id), debit_account.map (fun a => a.id),
      entry.amount, entry.description⟩
  let r := process_tags db db.current_uid eid entry.tags db.next_tag_id db.next_entry_tag_id
  { db with
    entries := db.entries ++ [entry_m],
    tags := db.tags ++ r.1,
    entry_tags := db.entry_tags ++ r.2.1,
    next_entry_id := eid + 1,
    next_tag_id := r.2.2.1,
    next_entry_tag_id := r.2.2.2 }

/-- `Database.delete_entry` (db.py lines 182-196): finds the entry scoped to
the current user; absent, returns `False` leaving the store untouched;
present, deletes every `entry_tag` row of that entry and then the entry
itself in the same transaction and returns `True`.  Tag rows are never
touched. -/
def delete_entry (db : Database) (entry_id : Nat) : Bool × Database :=
  match db.entries.find? (fun en => en.user_id == db.current_uid && en.id == entry_id) with
  | none => (false, db)
  | some en =>
    (true, { db with
      entry_tags := db.entry_tags.filter (fun et => et.entry_id != en.id),
      entries := db.entries.filter (fun x => x.id != en.id) })

/-- Truthiness of an optional string filter argument, as Python's
`if dr:` sees it (`None` and `""` are falsy). -/
def truthy : Option String → Bool
  | none => false
  | some s => !(s == "")

/-- SQLAlchemy's `EntryModel.debit_account.has(name=nm)`: there is an account
row whose id the entry's debit reference holds and whose name is `nm`. -/
def debit_has_name (db : Database) (en : EntryModel) (nm : String) : Bool :=
  db.accounts.any (fun a => some a.id == en.debit_account_id && a.name == nm)

/-- SQLAlchemy's `EntryModel.credit_account.has(name=nm)`: same for the
credit side. -/
def credit_has_name (db : Database) (en : EntryModel) (nm : String) : Bool :=
  db.accounts.any (fun a => some a.id == en.credit_account_id && a.name == nm)

/-- Query part of `Database.list_entries` (db.py lines 205-213): entries of
the current user, then optionally restricted by the truthy `debit_account`
and `credit_account` keyword filters. -/
def entries_query (db : Database) (dr cr : Option String) : List EntryModel :=
  let base := db.entries.filter (fun en => en.user_id == db.current_uid)
  let withDr :=
    if truthy dr then base.filter (fun en => debit_has_name db en (dr.getD "")) else base
  if truthy cr then withDr.filter (fun en => credit_has_name db en (cr.getD "")) else withDr

/-- Record shape produced per entry by `list_entries` (db.py lines 218-231),
fields in the order of the source dict. -/
structure EntryRecord where
  id : Nat
  when : String
  description : String
  credit_account : String
  debit_account : String
  amount : Rat
  who : String
  tags : List String
deriving Repr, DecidableEq

/-- Tag texts of an entry's association rows, in row order
(`[entry_tag.tag.tag for entry_tag in entry.tags]`, db.py line 229).  Each
`entry_tag.tag` is the tag row the association's `tag_id` references; a
dangling `tag_id` would make the attribute access fail, hence `Option`. -/
def tag_texts (tags : List TagModel) : List EntryTagModel → Option (List String)
  | [] => some []
  | et :: rest =>
    match tags.find? (fun t => t.id == et.tag_id) with
    | none => none
    | some t => (tag_texts tags rest).map (fun l => t.tag :: l)

/-- ORM relationship dereference: the account row a nullable reference column
points at, or `none` for a `NULL` or dangling reference. -/
def account_by_id (db : Database) : Option Nat → Option AccountModel
  | none => none
  | some i => db.accounts.find? (fun a => a.id == i)

/-- Record built for one entry (db.py lines 218-231).  `entry.credit_account.name`
and `entry.debit_account.name` fail with an attribute access on `None` when
the reference column is `NULL`, hence `Option`. -/
def entry_record (db : Database) (en : EntryModel) : Option EntryRecord :=
  match account_by_id db en.credit_account_id,
        account_by_id db en.debit_account_id,
        tag_texts db.tags (db.entry_tags.filter (fun et => et.entry_id == en.id)) with
  | some ca, some da, some ts =>
    some ⟨en.id, en.when, en.description, ca.name, da.name, en.amount, en.who, ts⟩
  | _, _, _ => none

/-- Record list for a query result (the loop of db.py lines 215-232). -/
def build_records (db : Database) : List EntryModel → Option (List EntryRecord)
  | [] => some []
  | en :: rest =>
    match entry_record db en with
    | none => none
    | some r => (build_records db rest).map (fun l => r :: l)

/-- `Database.list_entries` (db.py lines 198-233). -/
def list_entries (db : Database) (dr cr : Option String) : Option (List EntryRecord) :=
  build_records db (entries_query db dr cr)

/-- Record shape produced per account by `list_accounts` (db.py
lines 253-261). -/
structure AccountRecord where
  name : String
  description : String
  type : String
deriving Repr, DecidableEq

/-- `Database.list_accounts` (db.py lines 235-262): accounts of the current
user, optionally restricted by a truthy `type` keyword filter. -/
def list_accounts (db : Database) (ty : Option String) : List AccountRecord :=
  let base := db.accounts.filter (fun a => a.user_id == db.current_uid)
  let rows := if truthy ty then base.filter (fun a => a.type == ty.getD "") else base
  rows.map (fun a => ⟨a.name, a.description, a.type⟩)

/-- `Database.get_account_balance` (db.py lines 264-281): the sums
`func.sum(EntryModel.amount)` over the current user's entries whose credit
(resp. debit) side `has(name=account)`, the `0 if not sum` normalisation
(SQL `SUM` of no rows is `NULL`; a zero sum is also falsy but is already 0),
and the difference `sum_dr - sum_cr`. -/
def get_account_balance (db : Database) (account : String) : Rat :=
  let sum_cr :=
    ((db.entries.filter (fun en =>
        en.user_id == db.current_uid && credit_has_name db en account)).map
      (fun en => en.amount)).foldl (fun a b => a + b) 0
  let sum_dr :=
    ((db.entries.filter (fun en =>
        en.user_id == db.current_uid && debit_has_name db en account)).map
      (fun en => en.amount)).foldl (fun a b => a + b) 0
  sum_dr - sum_cr

/-! ### General helper lemmas -/

instance {ε α : Type} [DecidableEq ε] [DecidableEq α] : DecidableEq (Except ε α) := fun a b =>
  match a, b with
  | .ok x, .ok y =>
    if h : x = y then .isTrue (by rw [h]) else .isFalse (fun hc => by cases hc; exact h rfl)
  | .error x, .error y =>
    if h : x = y then .isTrue (by rw [h]) else .isFalse (fun hc => by cases hc; exact h rfl)
  | .ok _, .error _ => .isFalse (fun hc => by cases hc)
  | .error _, .ok _ => .isFalse (fun hc => by cases hc)

/-- Left fold of addition over rationals, written as `List.sum`. -/
theorem foldl_add_eq (l : List Rat) (a : Rat) :
    l.foldl (fun x y => x + y) a = a + l.sum := by
  induction l generalizing a with
  | nil => simp
  | cons b t ih => simp [List.foldl, ih, add_assoc]

/-- Searching a list by a key that is unique across the list finds exactly
the element carrying that key. -/
theorem find?_eq_of_nodup_map {α : Type} (f : α → Nat) (l : List α) (a : α)
    (h : (l.map f).Nodup) (ha : a ∈ l) :
    l.find? (fun x => f x == f a) = some a := by
  induction l with
  | nil => cases ha
  | cons b t ih =>
    rw [List.map_cons, List.nodup_cons] at h
    rcases List.mem_cons.mp ha with rfl | hat
    · simp [List.find?]
    · have hne : (f b == f a) = false := by
        rw [beq_eq_false_iff_ne]
        intro he
        exact h.1 (he ▸ List.mem_map_of_mem f hat)
      simp [List.find?, hne]
      exact ih h.2 hat

/-! ### Concrete stores used in the claim theorems and witnesses -/

/-- Store holding only the user alice (id 1), who is the current user; no
accounts exist. -/
def dbNoAccounts : Database :=
  ⟨[⟨1, "alice@example.com", "pw", "s", "alice", "2024-01-01"⟩],
    [], [], [], [], 2, 1, 1, 1, 1, some 1⟩

/-- Store with users alice (id 1) and bob (id 2); alice owns the tag
"groceries" (tag id 1); bob owns accounts "cash" (id 1) and "salary" (id 2);
bob is the current user. -/
def dbAliceTag : Database :=
  ⟨[⟨1, "alice@example.com", "pw", "s", "alice", "2024-01-01"⟩,
    ⟨2, "bob@example.com", "pw", "s", "bob", "2024-01-01"⟩],
    [⟨1, some 2, "cash", "", "asset"⟩, ⟨2, some 2, "salary", "", "income"⟩],
    [⟨1, some 1, "groceries"⟩],
    [], [], 3, 3, 2, 1, 1, some 2⟩

/-- Entry input used against `dbAliceTag`: bob books an entry carrying the
tag name "groceries". -/
def groceriesEntry : EntryInput :=
  ⟨"bob", "2024-01-02", 5, "food", "cash", "salary", ["groceries"]⟩

/-! ### C2 — `add_entry` with an unresolvable account name

The source resolves the debit and credit names with
`filter_by(name=...).first()` and assigns the result unchecked (db.py
lines 156-167).  When no account matches, `.first()` is `None`, the entry is
still committed with `NULL` reference columns, and no error of any kind is
raised — the spec flags exactly this as a defect to fix (`AccountNotFound`),
so the claim describes the intended contract and the code deviates from it. -/

/-- C2: failing-input evaluation.  Against a store with no accounts at all,
`add_entry` does not fail: it persists an entry row whose credit and debit
references are both `NULL` (and no association rows).  Under the claim the
call must fail with `AccountNotFound` and persist nothing. -/
theorem add_entry_dangling_account_persists :
    (add_entry dbNoAccounts ⟨"bob", "2024-01-01", 1000, "paycheck", "cash", "salary", []⟩).entries
      = [⟨1, some 1, "bob", "2024-01-01", none, none, 1000, "paycheck"⟩]
    ∧ (add_entry dbNoAccounts ⟨"bob", "2024-01-01", 1000, "paycheck", "cash", "salary", []⟩).entry_tags
      = []
    ∧ dbNoAccounts.accounts = [] := by
  decide

/-! ### C6 — tag resolution in `add_entry` is not scoped to the current user

The lookup `session.query(TagModel).filter(TagModel.tag == tag_name).first()`
(db.py line 173) matches on the tag text alone.  With alice owning a
"groceries" tag and bob as the current user, bob's new entry is linked to
alice's tag row and no tag owned by bob is created — contradicting the
claim's "scoped to the current identity" and "never links the entry to a tag
owned by a different user". -/

/-- C6: failing-input evaluation.  Bob's `add_entry` with tag name
"groceries" creates no tag row and links the new entry (via the sole
association row) to tag id 1, which is owned by alice (user 1), not by the
current user bob (user 2). -/
theorem add_entry_tag_cross_user_leak :
    (add_entry dbAliceTag groceriesEntry).tags = [⟨1, some 1, "groceries"⟩]
    ∧ (add_entry dbAliceTag groceriesEntry).entry_tags = [⟨1, some 2, 1, 1⟩]
    ∧ dbAliceTag.current_uid = some 2
    ∧ ((add_entry dbAliceTag groceriesEntry).tags.find? (fun t => t.id == 1)).map
        (fun t => t.user_id) = some (some 1) := by
  decide

/-! ### C9 — no `NoActiveUser` guard exists

`Database.__init__` sets `current_uid = None` (db.py line 91) and no method
checks it.  Calling `create_account` (or any other operation) before
`set_current_user` does not fail: it writes a row owned by `NULL`.  The spec
mandates failing with `NoActiveUser`; the code has no such error or check. -/

/-- C9: failing-input evaluation.  On a fresh store with no identity
established, `create_account` succeeds and inserts an account with a `NULL`
owner, and `add_entry` likewise persists an entry with a `NULL` owner —
neither fails, where the claim requires a `NoActiveUser` failure. -/
theorem no_active_user_unchecked :
    Database.empty.current_uid = none
    ∧ create_account Database.empty ⟨"cash", "wallet", "asset"⟩
        = .ok { Database.empty with
                  accounts := [⟨1, none, "cash", "wallet", "asset"⟩],
                  next_account_id := 2 }
    ∧ (add_entry Database.empty ⟨"bob", "2024-01-01", 1000, "x", "cash", "salary", []⟩).entries
        = [⟨1, none, "bob", "2024-01-01", none, none, 1000, "x"⟩] := by
  decide

/-! ### C1 — `get_account_balance` -/

/-- Spec scenario of §8, built through the embedded operations: register
alice, make her current, create her "cash" and "salary" accounts, book one
1000 entry debiting "cash" and crediting "salary". -/
def exampleRun : Except DBError Database := do
  let db1 ← create_user Database.empty ⟨"alice", "alice@example.com", "pw", "s", "2024-01-01"⟩
  let db2 ← set_current_user db1 "alice@example.com"
  let db3 ← create_account db2 ⟨"cash", "", "asset"⟩
  let db4 ← create_account db3 ⟨"salary", "", "income"⟩
  pure (add_entry db4 ⟨"bob", "2024-01-01", 1000, "paycheck", "cash", "salary", []⟩)

/-- Store that `exampleRun` evaluates to. -/
def exampleDb : Database :=
  ⟨[⟨1, "alice@example.com", "pw", "s", "alice", "2024-01-01"⟩],
    [⟨1, some 1, "cash", "", "asset"⟩, ⟨2, some 1, "salary", "", "income"⟩],
    [],
    [⟨1, some 1, "bob", "2024-01-01", some 2, some 1, 1000, "paycheck"⟩],
    [], 2, 3, 1, 2, 1, some 1⟩

/-- C1: `get_account_balance` is the sum of amounts over the current user's
entries whose debit side carries the queried account name minus the sum over
those whose credit side carries it; with no such entries on either side each
sum is empty and the balance is zero; and on the §8 scenario the balances of
"cash" and "salary" are 1000 and -1000. -/
theorem get_account_balance_spec :
    (∀ (db : Database) (a : String),
      get_account_balance db a =
        ((db.entries.filter (fun en =>
            en.user_id == db.current_uid && debit_has_name db en a)).map
          (fun en => en.amount)).sum -
        ((db.entries.filter (fun en =>
            en.user_id == db.current_uid && credit_has_name db en a)).map
          (fun en => en.amount)).sum)
    ∧ (∀ (db : Database) (a : String),
        db.entries.filter (fun en =>
          en.user_id == db.current_uid &&
            (debit_has_name db en a || credit_has_name db en a)) = [] →
        get_account_balance db a = 0)
    ∧ exampleRun.map
        (fun db => (get_account_balance db "cash", get_account_balance db "salary"))
        = .ok (1000, -1000) := by
  refine ⟨?_, ?_, ?_⟩
  · intro db a
    unfold get_account_balance
    rw [foldl_add_eq, foldl_add_eq, zero_add, zero_add]
  · intro db a h
    rw [List.filter_eq_nil_iff] at h
    have hd : db.entries.filter (fun en =>
        en.user_id == db.current_uid && debit_has_name db en a) = [] := by
      rw [List.filter_eq_nil_iff]
      intro en hen hp
      refine h en hen ?_
      rw [Bool.and_eq_true] at hp ⊢
      exact ⟨hp.1, by rw [Bool.or_eq_true]; exact Or.inl hp.2⟩
    have hc : db.entries.filter (fun en =>
        en.user_id == db.current_uid && credit_has_name db en a) = [] := by
      rw [List.filter_eq_nil_iff]
      intro en hen hp
      refine h en hen ?_
      rw [Bool.and_eq_true] at hp ⊢
      exact ⟨hp.1, by rw [Bool.or_eq_true]; exact Or.inr hp.2⟩
    unfold get_account_balance
    rw [hd, hc]
    simp
  · have h : exampleRun = .ok exampleDb := by decide
    rw [h]
    show Except.ok (get_account_balance exampleDb "cash", get_account_balance exampleDb "salary")
      = .ok (1000, -1000)
    have hcash : get_account_balance exampleDb "cash" = 1000 := by
      norm_num [get_account_balance, credit_has_name, debit_has_name, exampleDb,
        List.find?, List.filter, List.foldl, List.map, List.any]
    have hsal : get_account_balance exampleDb "salary" = -1000 := by
      norm_num [get_account_balance, credit_has_name, debit_has_name, exampleDb,
        List.find?, List.filter, List.foldl, List.map, List.any]
    rw [hcash, hsal]

/-- C1 witness: the zero-balance clause applied to a concrete store with no
entries. -/
theorem get_account_balance_spec_witness :
    get_account_balance dbNoAccounts "cash" = 0 :=
  get_account_balance_spec.2.1 dbNoAccounts "cash" (by decide)

/-! ### C5 — `create_account` and the `(owner, name)` uniqueness -/

/-- Store where bob (user 2) owns account "cash" and alice (user 1) is the
current user and owns nothing. -/
def dbOtherOwner : Database :=
  ⟨[⟨1, "alice@example.com", "pw", "s", "alice", "2024-01-01"⟩,
    ⟨2, "bob@example.com", "pw", "s", "bob", "2024-01-01"⟩],
    [⟨1, some 2, "cash", "", "asset"⟩],
    [], [], [], 3, 2, 1, 1, 1, some 1⟩

/-- C5: with an established identity `uid`, `create_account` fails with
`DuplicateAccount` (the `UNIQUE (name, user_id)` violation) whenever `uid`
already owns an account with the requested name, and succeeds — inserting an
account owned by `uid` — whenever `uid` owns no account with that name, no
matter which accounts other users own. -/
theorem create_account_spec (db : Database) (acc : AccountInput) (uid : Nat)
    (huid : db.current_uid = some uid) :
    (∀ a ∈ db.accounts, a.user_id = some uid → a.name = acc.name →
      create_account db acc = .error .duplicateAccount)
    ∧ ((∀ a ∈ db.accounts, a.user_id = some uid → a.name ≠ acc.name) →
      create_account db acc = .ok { db with
        accounts := db.accounts ++
          [⟨db.next_account_id, some uid, acc.name, acc.description, acc.type⟩],
        next_account_id := db.next_account_id + 1 }) := by
  constructor
  · intro a ha hau hname
    have hany : db.accounts.any
        (fun a => a.name == acc.name && sql_eq a.user_id db.current_uid) = true := by
      rw [List.any_eq_true]
      refine ⟨a, ha, ?_⟩
      rw [Bool.and_eq_true, beq_iff_eq]
      exact ⟨hname, by rw [hau, huid]; simp [sql_eq]⟩
    simp [create_account, hany]
  · intro hnone
    have hany : db.accounts.any
        (fun a => a.name == acc.name && sql_eq a.user_id db.current_uid) = false := by
      rw [List.any_eq_false]
      intro a ha
      rw [Bool.and_eq_true, beq_iff_eq, huid]
      rintro ⟨hname, hsql⟩
      cases hau : a.user_id with
      | none => rw [hau] at hsql; simp [sql_eq] at hsql
      | some v =>
        rw [hau] at hsql
        simp only [sql_eq, beq_iff_eq] at hsql
        exact hnone a ha (by rw [hau, hsql]) hname
    rw [create_account, hany]
    simp [huid]

/-- C5 witness: bob (current user of `dbAliceTag`) already owns "cash", so
creating it again fails; alice (current user of `dbOtherOwner`) does not own
"cash" even though bob does, so creating it succeeds for her. -/
theorem create_account_spec_witness :
    create_account dbAliceTag ⟨"cash", "", "asset"⟩ = .error .duplicateAccount
    ∧ create_account dbOtherOwner ⟨"cash", "wallet", "asset"⟩ = .ok { dbOtherOwner with
        accounts := dbOtherOwner.accounts ++ [⟨2, some 1, "cash", "wallet", "asset"⟩],
        next_account_id := 3 } :=
  ⟨(create_account_spec dbAliceTag ⟨"cash", "", "asset"⟩ 2 (by decide)).1
      ⟨1, some 2, "cash", "", "asset"⟩ (by decide) (by decide) (by decide),
    (create_account_spec dbOtherOwner ⟨"cash", "wallet", "asset"⟩ 1 (by decide)).2
      (by decide)⟩

/-! ### C8 — `set_current_user` -/

/-- C8: `set_current_user` on an email with no matching user fails (the
source hits the unguarded `user.id` attribute access on `None`, db.py
line 96 — the failure the spec names `UserNotFound`) and establishes no
identity; on the email of an existing user it succeeds and stores that
user's id as the identity every subsequent operation is scoped by — e.g.
the entry listing of the resulting store is filtered to that id. -/
theorem set_current_user_spec (db : Database) (email : String) :
    (db.users.find? (fun u => u.email == email) = none →
      set_current_user db email = .error .userNotFound)
    ∧ (∀ u, db.users.find? (fun u => u.email == email) = some u →
      set_current_user db email = .ok { db with current_uid := some u.id }
      ∧ entries_query { db with current_uid := some u.id } none none
          = db.entries.filter (fun en => en.user_id == some u.id)) := by
  constructor
  · intro h
    simp [set_current_user, h]
  · intro u h
    refine ⟨by simp [set_current_user, h], ?_⟩
    simp [entries_query, truthy]

/-- C8 witness: on `dbOtherOwner`, an unknown email fails and bob's email
makes user 2 the identity scoping subsequent queries. -/
theorem set_current_user_spec_witness :
    set_current_user dbOtherOwner "carol@example.com" = .error .userNotFound
    ∧ set_current_user dbOtherOwner "bob@example.com"
        = .ok { dbOtherOwner with current_uid := some 2 } :=
  ⟨(set_current_user_spec dbOtherOwner "carol@example.com").1 (by decide),
    ((set_current_user_spec dbOtherOwner "bob@example.com").2
      ⟨2, "bob@example.com", "pw", "s", "bob", "2024-01-01"⟩ (by decide)).1⟩

/-! ### C4 — `delete_entry` -/

/-- Record built from an entry carries that entry's id. -/
theorem entry_record_id (db : Database) (en : EntryModel) (r : EntryRecord)
    (h : entry_record db en = some r) : r.id = en.id := by
  unfold entry_record at h
  split at h
  · injection h with h2
    rw [← h2]
  · simp at h

/-- Every record produced by the listing loop comes from some entry of the
queried list. -/
theorem build_records_sound (db : Database) :
    ∀ (ens : List EntryModel) (l : List EntryRecord), build_records db ens = some l →
      ∀ r ∈ l, ∃ en, en ∈ ens ∧ entry_record db en = some r := by
  intro ens
  induction ens with
  | nil =>
    intro l h r hr
    unfold build_records at h
    injection h with h2
    rw [← h2] at hr
    cases hr
  | cons en rest ih =>
    intro l h r hr
    unfold build_records at h
    cases hrec : entry_record db en with
    | none => rw [hrec] at h; simp at h
    | some r0 =>
      rw [hrec] at h
      cases hrest : build_records db rest with
      | none => rw [hrest] at h; simp at h
      | some l0 =>
        rw [hrest] at h
        simp only [Option.map_some'] at h
        injection h with h2
        rw [← h2] at hr
        rcases List.mem_cons.mp hr with rfl | hmem
        · exact ⟨en, List.mem_cons_self en rest, hrec⟩
        · obtain ⟨en2, hen2, hrec2⟩ := ih l0 hrest r hmem
          exact ⟨en2, List.mem_cons_of_mem _ hen2, hrec2⟩

/-- Deleting an id whose lookup misses is a no-op returning `false`. -/
theorem delete_entry_not_found (db : Database) (eid : Nat)
    (h : db.entries.find? (fun en => en.user_id == db.current_uid && en.id == eid) = none) :
    delete_entry db eid = (false, db) := by
  unfold delete_entry
  rw [h]

/-- C4: `delete_entry` on an id no entry of the current user carries returns
`false` and leaves the store exactly as it was.  On the id of an existing
entry of the current user it returns `true`, keeps every tag row, removes
exactly the association rows of that entry and exactly the entry rows with
that id, makes any subsequent full listing contain no record with that id,
and a second `delete_entry` with the same id returns `false`. -/
theorem delete_entry_spec (db : Database) (eid : Nat) :
    (db.entries.find? (fun en => en.user_id == db.current_uid && en.id == eid) = none →
      delete_entry db eid = (false, db))
    ∧ (∀ en, db.entries.find? (fun en => en.user_id == db.current_uid && en.id == eid)
          = some en →
        (delete_entry db eid).1 = true
        ∧ (delete_entry db eid).2.tags = db.tags
        ∧ (∀ et ∈ (delete_entry db eid).2.entry_tags, et.entry_id ≠ eid)
        ∧ (∀ et ∈ db.entry_tags, et.entry_id ≠ eid → et ∈ (delete_entry db eid).2.entry_tags)
        ∧ (∀ x ∈ (delete_entry db eid).2.entries, x.id ≠ eid)
        ∧ (∀ x ∈ db.entries, x.id ≠ eid → x ∈ (delete_entry db eid).2.entries)
        ∧ (∀ l, list_entries (delete_entry db eid).2 none none = some l →
            ∀ r ∈ l, r.id ≠ eid)
        ∧ (delete_entry (delete_entry db eid).2 eid).1 = false) := by
  constructor
  · exact delete_entry_not_found db eid
  · intro en h
    have hid : en.id = eid := by
      have hp := List.find?_some h
      simp only [Bool.and_eq_true, beq_iff_eq] at hp
      exact hp.2
    have hdel : delete_entry db eid =
        (true, { db with
          entry_tags := db.entry_tags.filter (fun et => et.entry_id != en.id),
          entries := db.entries.filter (fun x => x.id != en.id) }) := by
      unfold delete_entry
      rw [h]
    have hents : ∀ x ∈ (delete_entry db eid).2.entries, x.id ≠ eid := by
      intro x hx
      rw [hdel] at hx
      have := (List.mem_filter.mp hx).2
      rw [bne_iff_ne] at this
      rw [hid] at this
      exact this
    refine ⟨by rw [hdel], by rw [hdel], ?_, ?_, hents, ?_, ?_, ?_⟩
    · intro et het
      rw [hdel] at het
      have := (List.mem_filter.mp het).2
      rw [bne_iff_ne] at this
      rw [hid] at this
      exact this
    · intro et het hne
      rw [hdel]
      exact List.mem_filter.mpr ⟨het, by rw [bne_iff_ne, hid]; exact hne⟩
    · intro x hx hne
      rw [hdel]
      exact List.mem_filter.mpr ⟨hx, by rw [bne_iff_ne, hid]; exact hne⟩
    · intro l hl r hr
      obtain ⟨en2, hen2, hrec2⟩ :=
        build_records_sound (delete_entry db eid).2 _ l hl r hr
      have hen2m : en2 ∈ (delete_entry db eid).2.entries := by
        have : entries_query (delete_entry db eid).2 none none =
            (delete_entry db eid).2.entries.filter
              (fun x => x.user_id == (delete_entry db eid).2.current_uid) := by
          simp [entries_query, truthy]
        rw [this] at hen2
        exact (List.mem_filter.mp hen2).1
      rw [entry_record_id _ _ _ hrec2]
      exact hents en2 hen2m
    · have hnone : (delete_entry db eid).2.entries.find?
          (fun x => x.user_id == (delete_entry db eid).2.current_uid && x.id == eid) = none := by
        cases hf : (delete_entry db eid).2.entries.find?
            (fun x => x.user_id == (delete_entry db eid).2.current_uid && x.id == eid) with
        | none => rfl
        | some x =>
          exfalso
          have hp := List.find?_some hf
          simp only [Bool.and_eq_true, beq_iff_eq] at hp
          exact hents x (List.mem_of_find?_eq_some hf) hp.2
      rw [delete_entry_not_found _ _ hnone]

/-- C4 witness: in a store where bob owns entry 1 carrying one tag
association to alice's tag, deleting entry 1 succeeds, keeps the tag table,
and deleting it again returns `false`; deleting an absent id 7 is a `false`
no-op. -/
theorem delete_entry_spec_witness :
    delete_entry (add_entry dbAliceTag groceriesEntry) 7
        = (false, add_entry dbAliceTag groceriesEntry)
    ∧ (delete_entry (add_entry dbAliceTag groceriesEntry) 1).1 = true
    ∧ (delete_entry (add_entry dbAliceTag groceriesEntry) 1).2.tags
        = (add_entry dbAliceTag groceriesEntry).tags
    ∧ (delete_entry (delete_entry (add_entry dbAliceTag groceriesEntry) 1).2 1).1 = false :=
  have h2 := (delete_entry_spec (add_entry dbAliceTag groceriesEntry) 1).2
    ⟨1, some 2, "bob", "2024-01-02", some 2, some 1, 5, "food"⟩ (by decide)
  ⟨(delete_entry_spec (add_entry dbAliceTag groceriesEntry) 7).1 (by decide),
    h2.1, h2.2.1, h2.2.2.2.2.2.2.2⟩

/-! ### C7 — `list_entries` filters -/

/-- Store for the filter scenario: alice owns accounts "cash" (id 1) and
"bank" (id 2) and two entries, one debiting "cash" and one merely crediting
it. -/
def dbCrossFilter : Database :=
  ⟨[⟨1, "alice@example.com", "pw", "s", "alice", "2024-01-01"⟩],
    [⟨1, some 1, "cash", "", "asset"⟩, ⟨2, some 1, "bank", "", "asset"⟩],
    [],
    [⟨1, some 1, "a", "2024-01-01", some 2, some 1, 5, "d1"⟩,
     ⟨2, some 1, "b", "2024-01-02", some 1, some 2, 7, "d2"⟩],
    [], 2, 3, 1, 3, 1, some 1⟩

/-- C7: the entry query selects exactly the current user's entries; a
non-empty debit filter additionally requires the debit side to carry that
account name, a non-empty credit filter the credit side, and both together
conjoin; concretely, filtering `dbCrossFilter` on debit "cash" lists only
the entry debiting "cash", not the one that merely credits it. -/
theorem list_entries_filter_spec :
    (∀ (db : Database) (dn cn : String) (en : EntryModel), dn ≠ "" → cn ≠ "" →
      (en ∈ entries_query db (some dn) (some cn) ↔
        en ∈ db.entries ∧ en.user_id = db.current_uid
          ∧ debit_has_name db en dn = true ∧ credit_has_name db en cn = true))
    ∧ (∀ (db : Database) (dn : String) (en : EntryModel), dn ≠ "" →
      (en ∈ entries_query db (some dn) none ↔
        en ∈ db.entries ∧ en.user_id = db.current_uid ∧ debit_has_name db en dn = true))
    ∧ (∀ (db : Database) (en : EntryModel),
      en ∈ entries_query db none none ↔ en ∈ db.entries ∧ en.user_id = db.current_uid)
    ∧ list_entries dbCrossFilter (some "cash") none
        = some [⟨1, "2024-01-01", "d1", "bank", "cash", 5, "a", []⟩] := by
  refine ⟨?_, ?_, ?_, by decide⟩
  · intro db dn cn en hdn hcn
    have hd : truthy (some dn) = true := by simp [truthy, hdn]
    have hc : truthy (some cn) = true := by simp [truthy, hcn]
    simp only [entries_query, hd, hc, if_true, List.mem_filter, Option.getD_some,
      Bool.and_eq_true, beq_iff_eq]
    tauto
  · intro db dn en hdn
    have hd : truthy (some dn) = true := by simp [truthy, hdn]
    have hc : truthy (none : Option String) = false := rfl
    simp only [entries_query, hd, hc, if_true, Bool.false_eq_true, if_false,
      List.mem_filter, Option.getD_some, Bool.and_eq_true, beq_iff_eq]
    tauto
  · intro db en
    have hc : truthy (none : Option String) = false := rfl
    simp only [entries_query, hc, Bool.false_eq_true, if_false,
      List.mem_filter, Bool.and_eq_true, beq_iff_eq]

/-- C7 witness: the first conjuncts applied at the concrete store — the
debit-"cash" query keeps the entry debiting "cash" and drops the entry that
only credits it. -/
theorem list_entries_filter_spec_witness :
    (⟨1, some 1, "a", "2024-01-01", some 2, some 1, 5, "d1"⟩ : EntryModel)
      ∈ entries_query dbCrossFilter (some "cash") none
    ∧ ¬((⟨2, some 1, "b", "2024-01-02", some 1, some 2, 7, "d2"⟩ : EntryModel)
      ∈ entries_query dbCrossFilter (some "cash") none) :=
  ⟨(list_entries_filter_spec.2.1 dbCrossFilter "cash"
      ⟨1, some 1, "a", "2024-01-01", some 2, some 1, 5, "d1"⟩ (by decide)).mpr
      ⟨by decide, by decide, by decide⟩,
    fun hmem =>
      absurd ((list_entries_filter_spec.2.1 dbCrossFilter "cash"
        ⟨2, some 1, "b", "2024-01-02", some 1, some 2, 7, "d2"⟩ (by decide)).mp hmem).2.2
        (by decide)⟩

/-! ### C10 — an entry debiting and crediting the same account -/

/-- Balance formula as sums: the left fold written as `List.sum`. -/
theorem balance_eq_sums (db : Database) (a : String) :
    get_account_balance db a =
      ((db.entries.filter (fun en =>
          en.user_id == db.current_uid && debit_has_name db en a)).map
        (fun en => en.amount)).sum -
      ((db.entries.filter (fun en =>
          en.user_id == db.current_uid && credit_has_name db en a)).map
        (fun en => en.amount)).sum := by
  unfold get_account_balance
  rw [foldl_add_eq, foldl_add_eq, zero_add, zero_add]

/-- Balance only reads the entry table, the account table and the current
identity. -/
theorem balance_congr (db1 db2 : Database) (h1 : db1.entries = db2.entries)
    (h2 : db1.accounts = db2.accounts) (h3 : db1.current_uid = db2.current_uid)
    (nm : String) : get_account_balance db1 nm = get_account_balance db2 nm := by
  simp only [get_account_balance, debit_has_name, credit_has_name, h1, h2, h3]

/-- Appending one entry moves the balance by its amount on each side it
matches. -/
theorem balance_append (db : Database) (E : EntryModel) (nm : String) :
    get_account_balance { db with entries := db.entries ++ [E] } nm
      = get_account_balance db nm
        + (if E.user_id == db.current_uid && debit_has_name db E nm then E.amount else 0)
        - (if E.user_id == db.current_uid && credit_has_name db E nm then E.amount else 0) := by
  rw [balance_eq_sums, balance_eq_sums]
  show ((List.filter _ (db.entries ++ [E])).map _).sum
      - ((List.filter _ (db.entries ++ [E])).map _).sum = _
  rw [List.filter_append, List.filter_append, List.map_append, List.map_append,
    List.sum_append, List.sum_append]
  have hdh : debit_has_name { db with entries := db.entries ++ [E] } = debit_has_name db := rfl
  have hch : credit_has_name { db with entries := db.entries ++ [E] } = credit_has_name db := rfl
  rw [hdh, hch]
  cases hd : E.user_id == db.current_uid && debit_has_name db E nm <;>
    cases hc : E.user_id == db.current_uid && credit_has_name db E nm <;>
      simp [List.filter_cons, hd, hc] <;> try ring

/-- C10: `add_entry` accepts an input whose debit and credit account names
coincide — the entry is persisted, with both reference columns resolved to
the same value — and such an entry leaves the balance of that account
unchanged, its amount entering the debit sum and the credit sum alike. -/
theorem same_account_entry_zero_balance (db : Database)
    (who whn descr nm : String) (amt : Rat) (tgs : List String) :
    (add_entry db ⟨who, whn, amt, descr, nm, nm, tgs⟩).entries
      = db.entries ++
        [⟨db.next_entry_id, db.current_uid, who, whn,
          (db.accounts.find? (fun a => a.name == nm)).map (fun a => a.id),
          (db.accounts.find? (fun a => a.name == nm)).map (fun a => a.id),
          amt, descr⟩]
    ∧ get_account_balance (add_entry db ⟨who, whn, amt, descr, nm, nm, tgs⟩) nm
        = get_account_balance db nm := by
  refine ⟨rfl, ?_⟩
  have hco : get_account_balance (add_entry db ⟨who, whn, amt, descr, nm, nm, tgs⟩) nm
      = get_account_balance { db with entries := db.entries ++
          [⟨db.next_entry_id, db.current_uid, who, whn,
            (db.accounts.find? (fun a => a.name == nm)).map (fun a => a.id),
            (db.accounts.find? (fun a => a.name == nm)).map (fun a => a.id),
            amt, descr⟩] } nm :=
    balance_congr _ _ rfl rfl rfl nm
  rw [hco, balance_append]
  have hcd : credit_has_name db
      ⟨db.next_entry_id, db.current_uid, who, whn,
        (db.accounts.find? (fun a => a.name == nm)).map (fun a => a.id),
        (db.accounts.find? (fun a => a.name == nm)).map (fun a => a.id),
        amt, descr⟩ nm
      = debit_has_name db
      ⟨db.next_entry_id, db.current_uid, who, whn,
        (db.accounts.find? (fun a => a.name == nm)).map (fun a => a.id),
        (db.accounts.find? (fun a => a.name == nm)).map (fun a => a.id),
        amt, descr⟩ nm := rfl
  rw [hcd, add_sub_cancel_right]

/-! ### C3 — `add_entry` / `list_entries` round trip -/

/-- Unfolding equation: an empty tag-name list creates nothing. -/
theorem process_tags_nil (db : Database) (uid : Option Nat) (eid ntid netid : Nat) :
    process_tags db uid eid [] ntid netid = ([], [], ntid, netid) := rfl

/-- Unfolding equation for a tag name whose text already exists in the
store: the association reuses the found row's id. -/
theorem process_tags_cons_found (db : Database) (uid : Option Nat)
    (eid : Nat) (nm : String) (rest : List String) (ntid netid : Nat) (t : TagModel)
    (hf : db.tags.find? (fun x => x.tag == nm) = some t) :
    process_tags db uid eid (nm :: rest) ntid netid =
      ((process_tags db uid eid rest ntid (netid + 1)).1,
        ⟨netid, uid, eid, t.id⟩ :: (process_tags db uid eid rest ntid (netid + 1)).2.1,
        (process_tags db uid eid rest ntid (netid + 1)).2.2.1,
        (process_tags db uid eid rest ntid (netid + 1)).2.2.2) := by
  simp only [process_tags]
  rw [hf]

/-- Unfolding equation for a tag name with no existing row: a fresh tag
owned by `uid` is created and the association points at it. -/
theorem process_tags_cons_new (db : Database) (uid : Option Nat)
    (eid : Nat) (nm : String) (rest : List String) (ntid netid : Nat)
    (hf : db.tags.find? (fun x => x.tag == nm) = none) :
    process_tags db uid eid (nm :: rest) ntid netid =
      (⟨ntid, uid, nm⟩ :: (process_tags db uid eid rest (ntid + 1) (netid + 1)).1,
        ⟨netid, uid, eid, ntid⟩ :: (process_tags db uid eid rest (ntid + 1) (netid + 1)).2.1,
        (process_tags db uid eid rest (ntid + 1) (netid + 1)).2.2.1,
        (process_tags db uid eid rest (ntid + 1) (netid + 1)).2.2.2) := by
  simp only [process_tags]
  rw [hf]

/-- Every association created by the tag loop links the new entry. -/
theorem process_tags_entry_ids (db : Database) (uid : Option Nat) (eid : Nat) :
    ∀ (names : List String) (ntid netid : Nat),
      ∀ et ∈ (process_tags db uid eid names ntid netid).2.1, et.entry_id = eid := by
  intro names
  induction names with
  | nil =>
    intro ntid netid et het
    rw [process_tags_nil] at het
    cases het
  | cons nm rest ih =>
    intro ntid netid et het
    cases hf : db.tags.find? (fun x => x.tag == nm) with
    | some t =>
      rw [process_tags_cons_found db uid eid nm rest ntid netid t hf] at het
      rcases List.mem_cons.mp het with rfl | hmem
      · rfl
      · exact ih ntid (netid + 1) et hmem
    | none =>
      rw [process_tags_cons_new db uid eid nm rest ntid netid hf] at het
      rcases List.mem_cons.mp het with rfl | hmem
      · rfl
      · exact ih (ntid + 1) (netid + 1) et hmem

/-- Unfolding equation for the tag-text extraction. -/
theorem tag_texts_cons (tags : List TagModel) (et : EntryTagModel)
    (ets : List EntryTagModel) :
    tag_texts tags (et :: ets) =
      match tags.find? (fun t => t.id == et.tag_id) with
      | none => none
      | some t => (tag_texts tags ets).map (fun l => t.tag :: l) := rfl

/-- Reading back the associations created by the tag loop, against the tag
table as extended by that same loop, recovers exactly the submitted tag
names: an existing text resolves to the stored row with that text, a fresh
text to the newly created row.  `extra` accounts for rows created by earlier
loop iterations. -/
theorem process_tags_texts (db : Database) (uid : Option Nat) (eid : Nat)
    (htags : ∀ t ∈ db.tags, t.id < db.next_tag_id)
    (hnd : (db.tags.map (fun t => t.id)).Nodup) :
    ∀ (names : List String) (ntid netid : Nat) (extra : List TagModel),
      db.next_tag_id ≤ ntid →
      (∀ t ∈ extra, t.id < ntid) →
      tag_texts ((db.tags ++ extra) ++ (process_tags db uid eid names ntid netid).1)
          (process_tags db uid eid names ntid netid).2.1
        = some names := by
  intro names
  induction names with
  | nil =>
    intro ntid netid extra h1 h2
    rw [process_tags_nil]
    rfl
  | cons nm rest ih =>
    intro ntid netid extra h1 h2
    cases hf : db.tags.find? (fun x => x.tag == nm) with
    | some t =>
      rw [process_tags_cons_found db uid eid nm rest ntid netid t hf]
      have htmem : t ∈ db.tags := List.mem_of_find?_eq_some hf
      have htext : t.tag = nm := by
        have := List.find?_some hf
        rwa [beq_iff_eq] at this
      have htfind : db.tags.find? (fun x => x.id == t.id) = some t :=
        find?_eq_of_nodup_map (fun x => x.id) db.tags t hnd htmem
      have hfind : ((db.tags ++ extra) ++
            (process_tags db uid eid rest ntid (netid + 1)).1).find?
          (fun x => x.id == t.id) = some t := by
        rw [List.append_assoc, List.find?_append, htfind, Option.or_some]
      dsimp only
      rw [tag_texts_cons]
      dsimp only
      rw [hfind]
      dsimp only
      rw [ih ntid (netid + 1) extra h1 h2, htext]
      rfl
    | none =>
      rw [process_tags_cons_new db uid eid nm rest ntid netid hf]
      have hnofirst : (db.tags ++ extra).find? (fun x => x.id == ntid) = none := by
        rw [List.find?_eq_none]
        intro x hx
        simp only [beq_iff_eq]
        rcases List.mem_append.mp hx with hx1 | hx2
        · exact Nat.ne_of_lt (lt_of_lt_of_le (htags x hx1) h1)
        · exact Nat.ne_of_lt (h2 x hx2)
      have hfind : ((db.tags ++ extra) ++
            (⟨ntid, uid, nm⟩ :: (process_tags db uid eid rest (ntid + 1) (netid + 1)).1)).find?
          (fun x => x.id == ntid) = some ⟨ntid, uid, nm⟩ := by
        rw [List.find?_append, hnofirst, Option.none_or, List.find?_cons_of_pos]
        simp
      have ih2 := ih (ntid + 1) (netid + 1) (extra ++ [⟨ntid, uid, nm⟩])
        (Nat.le_trans h1 (Nat.le_succ ntid))
        (by
          intro x hx
          rcases List.mem_append.mp hx with hx1 | hx2
          · exact Nat.lt_trans (h2 x hx1) (Nat.lt_succ_self ntid)
          · rcases List.mem_singleton.mp hx2 with rfl
            exact Nat.lt_succ_self ntid)
      have happ : (db.tags ++ (extra ++ [(⟨ntid, uid, nm⟩ : TagModel)])) ++
            (process_tags db uid eid rest (ntid + 1) (netid + 1)).1
          = (db.tags ++ extra) ++
            (⟨ntid, uid, nm⟩ :: (process_tags db uid eid rest (ntid + 1) (netid + 1)).1) := by
        simp
      rw [happ] at ih2
      rw [tag_texts_cons]
      dsimp only
      rw [hfind, ih2]
      rfl

/-- Every queried entry whose record builds successfully appears in the
listing result. -/
theorem build_records_complete (db : Database) :
    ∀ (ens : List EntryModel) (l : List EntryRecord), build_records db ens = some l →
      ∀ en ∈ ens, ∀ r, entry_record db en = some r → r ∈ l := by
  intro ens
  induction ens with
  | nil =>
    intro l h en hen
    cases hen
  | cons en0 rest ih =>
    intro l h en hen r hr
    unfold build_records at h
    cases hrec : entry_record db en0 with
    | none => rw [hrec] at h; simp at h
    | some r0 =>
      rw [hrec] at h
      cases hrest : build_records db rest with
      | none => rw [hrest] at h; simp at h
      | some l0 =>
        rw [hrest] at h
        simp only [Option.map_some'] at h
        injection h with h2
        rw [← h2]
        rcases List.mem_cons.mp hen with rfl | hmem
        · rw [hrec] at hr
          injection hr with h3
          rw [← h3]
          exact List.mem_cons_self r0 l0
        · exact List.mem_cons_of_mem r0 (ih l0 hrest en hmem r hr)

/-- The record `list_entries` builds for the entry just persisted by
`add_entry` carries exactly the submitted field values: the account names it
resolved, the amount, actor, date, description and the submitted tag names
in order.  Hypotheses: both account names resolve, primary keys of the
account and tag tables are unique, tag ids stay below the tag counter and no
stale association row mentions the not-yet-used entry id. -/
theorem entry_record_add_entry (db : Database) (e : EntryInput) (ca da : AccountModel)
    (hca : db.accounts.find? (fun a => a.name == e.credit_account) = some ca)
    (hda : db.accounts.find? (fun a => a.name == e.debit_account) = some da)
    (hacc : (db.accounts.map (fun a => a.id)).Nodup)
    (htag : (db.tags.map (fun t => t.id)).Nodup)
    (htagb : ∀ t ∈ db.tags, t.id < db.next_tag_id)
    (hetb : ∀ et ∈ db.entry_tags, et.entry_id ≠ db.next_entry_id) :
    entry_record (add_entry db e)
      ⟨db.next_entry_id, db.current_uid, e.who, e.when,
        (db.accounts.find? (fun a => a.name == e.credit_account)).map (fun a => a.id),
        (db.accounts.find? (fun a => a.name == e.debit_account)).map (fun a => a.id),
        e.amount, e.description⟩
    = some ⟨db.next_entry_id, e.when, e.description, e.credit_account, e.debit_account,
        e.amount, e.who, e.tags⟩ := by
  have hcnm : ca.name = e.credit_account := by
    have := List.find?_some hca
    rwa [beq_iff_eq] at this
  have hdnm : da.name = e.debit_account := by
    have := List.find?_some hda
    rwa [beq_iff_eq] at this
  have h1 : account_by_id (add_entry db e)
      ((db.accounts.find? (fun a => a.name == e.credit_account)).map (fun a => a.id))
      = some ca := by
    rw [hca]
    show db.accounts.find? (fun a => a.id == ca.id) = some ca
    exact find?_eq_of_nodup_map (fun a => a.id) db.accounts ca hacc
      (List.mem_of_find?_eq_some hca)
  have h2 : account_by_id (add_entry db e)
      ((db.accounts.find? (fun a => a.name == e.debit_account)).map (fun a => a.id))
      = some da := by
    rw [hda]
    show db.accounts.find? (fun a => a.id == da.id) = some da
    exact find?_eq_of_nodup_map (fun a => a.id) db.accounts da hacc
      (List.mem_of_find?_eq_some hda)
  have hfilt : (add_entry db e).entry_tags.filter
      (fun et => et.entry_id == db.next_entry_id)
      = (process_tags db db.current_uid db.next_entry_id e.tags
          db.next_tag_id db.next_entry_tag_id).2.1 := by
    show (db.entry_tags ++ (process_tags db db.current_uid db.next_entry_id e.tags
        db.next_tag_id db.next_entry_tag_id).2.1).filter
          (fun et => et.entry_id == db.next_entry_id) = _
    rw [List.filter_append]
    have hold : db.entry_tags.filter (fun et => et.entry_id == db.next_entry_id) = [] := by
      rw [List.filter_eq_nil_iff]
      intro et het
      simp only [beq_iff_eq]
      exact hetb et het
    have hnew : ((process_tags db db.current_uid db.next_entry_id e.tags
        db.next_tag_id db.next_entry_tag_id).2.1).filter
          (fun et => et.entry_id == db.next_entry_id)
        = (process_tags db db.current_uid db.next_entry_id e.tags
            db.next_tag_id db.next_entry_tag_id).2.1 := by
      rw [List.filter_eq_self]
      intro et het
      simp only [beq_iff_eq]
      exact process_tags_entry_ids db db.current_uid db.next_entry_id e.tags
        db.next_tag_id db.next_entry_tag_id et het
    rw [hold, hnew, List.nil_append]
  have htexts : tag_texts (add_entry db e).tags
      ((process_tags db db.current_uid db.next_entry_id e.tags
        db.next_tag_id db.next_entry_tag_id).2.1)
      = some e.tags := by
    have h := process_tags_texts db db.current_uid db.next_entry_id htagb htag
      e.tags db.next_tag_id db.next_entry_tag_id [] (Nat.le_refl _)
      (by intro t ht; cases ht)
    rw [List.append_nil] at h
    exact h
  unfold entry_record
  dsimp only
  rw [h1, h2, hfilt, htexts]
  dsimp only
  rw [hcnm, hdnm]

/-- C3: an entry submitted through `add_entry` and then returned by a full
`list_entries` of the same store comes back with exactly the submitted
values: actor, date, credit and debit account names, amount, description and
tag-name list.  Hypotheses: both account names resolve, primary keys of the
account and tag tables are unique, tag ids stay below the tag counter, no
stale association row uses the fresh entry id, and the listing succeeds. -/
theorem add_entry_list_entries_round_trip (db : Database) (e : EntryInput)
    (ca da : AccountModel) (l : List EntryRecord)
    (hca : db.accounts.find? (fun a => a.name == e.credit_account) = some ca)
    (hda : db.accounts.find? (fun a => a.name == e.debit_account) = some da)
    (hacc : (db.accounts.map (fun a => a.id)).Nodup)
    (htag : (db.tags.map (fun t => t.id)).Nodup)
    (htagb : ∀ t ∈ db.tags, t.id < db.next_tag_id)
    (hetb : ∀ et ∈ db.entry_tags, et.entry_id ≠ db.next_entry_id)
    (hl : list_entries (add_entry db e) none none = some l) :
    (⟨db.next_entry_id, e.when, e.description, e.credit_account, e.debit_account,
        e.amount, e.who, e.tags⟩ : EntryRecord) ∈ l := by
  have hrec := entry_record_add_entry db e ca da hca hda hacc htag htagb hetb
  have hq : entries_query (add_entry db e) none none
      = (add_entry db e).entries.filter
          (fun en => en.user_id == (add_entry db e).current_uid) := by
    simp [entries_query, truthy]
  have hmem : (⟨db.next_entry_id, db.current_uid, e.who, e.when,
      (db.accounts.find? (fun a => a.name == e.credit_account)).map (fun a => a.id),
      (db.accounts.find? (fun a => a.name == e.debit_account)).map (fun a => a.id),
      e.amount, e.description⟩ : EntryModel)
      ∈ entries_query (add_entry db e) none none := by
    rw [hq]
    apply List.mem_filter.mpr
    constructor
    · show _ ∈ db.entries ++ [(⟨db.next_entry_id, db.current_uid, e.who, e.when,
        (db.accounts.find? (fun a => a.name == e.credit_account)).map (fun a => a.id),
        (db.accounts.find? (fun a => a.name == e.debit_account)).map (fun a => a.id),
        e.amount, e.description⟩ : EntryModel)]
      exact List.mem_append_right db.entries (List.mem_singleton_self _)
    · show ((db.current_uid : Option Nat) == db.current_uid) = true
      exact beq_self_eq_true db.current_uid
  exact build_records_complete (add_entry db e) (entries_query (add_entry db e) none none)
    l hl _ hmem _ hrec

/-- C3 witness: bob's tagged entry against `dbAliceTag` lists back with
exactly the submitted fields. -/
theorem add_entry_list_entries_round_trip_witness :
    list_entries (add_entry dbAliceTag groceriesEntry) none none
      = some [⟨1, "2024-01-02", "food", "salary", "cash", 5, "bob", ["groceries"]⟩]
    ∧ (⟨1, "2024-01-02", "food", "salary", "cash", 5, "bob", ["groceries"]⟩ : EntryRecord)
      ∈ [(⟨1, "2024-01-02", "food", "salary", "cash", 5, "bob", ["groceries"]⟩ : EntryRecord)] :=
  ⟨by decide,
    add_entry_list_entries_round_trip dbAliceTag groceriesEntry
      ⟨2, some 2, "salary", "", "income"⟩ ⟨1, some 2, "cash", "", "asset"⟩
      [⟨1, "2024-01-02", "food", "salary", "cash", 5, "bob", ["groceries"]⟩]
      (by decide) (by decide) (by decide) (by decide) (by decide) (by decide) (by decide)⟩
